import Mathlib

/-!
Verification of the MTB-CNN data-preparation and evaluation utilities
(`md_cnn/model_training/tb_cnn_codebase_tf1.py`) against their
natural-language specification.

The Python functions are shallowly embedded as Lean definitions:
numpy float arrays become lists of rationals (or reals where `log` is
involved), pandas cells become an explicit cell type, and operations
that raise Python exceptions (`IndexError`, `TypeError`,
`ZeroDivisionError`, `NameError`) return `Except String`.  An IEEE
`0/0 = NaN` outcome is modelled as `Option.none`.
-/

namespace MTBCNN

/-! ## One-hot encoding (`get_one_hot`, source lines 23-48) -/

/-- The module-level dictionary `BASE_TO_COLUMN = {'A': 0, 'C': 1, 'T': 2, 'G': 3, '-': 4}`. -/
def BASE_TO_COLUMN (b : Char) : Option Nat :=
  if b = 'A' then some 0
  else if b = 'C' then some 1
  else if b = 'T' then some 2
  else if b = 'G' then some 3
  else if b = '-' then some 4
  else none

/-- `BASE_TO_COLUMN.get(b, b)`: a dictionary lookup whose default is the key itself,
so an unmapped symbol is passed through unchanged (as a `Char`, not an index). -/
def dictGetOrPassthrough (b : Char) : Nat ⊕ Char :=
  match BASE_TO_COLUMN b with
  | some n => Sum.inl n
  | none => Sum.inr b

/-- `seq_in_index = [BASE_TO_COLUMN.get(b, b) for b in sequence]`. -/
def seq_in_index (s : List Char) : List (Nat ⊕ Char) :=
  s.map dictGetOrPassthrough

/-- Whether one element of the index list is an integer.  `np.array(seq_in_index)`
has an integer dtype exactly when every element is an integer; if any element is a
character the array gets a string dtype and fancy indexing raises `IndexError`. -/
def isIntIndex : Nat ⊕ Char → Bool
  | Sum.inl _ => true
  | Sum.inr _ => false

/-- One row of the result of `one_hot[np.arange(seq_len), np.array(seq_in_index)] = 1`
on the zero matrix `np.zeros((seq_len, 5))`: row `i` of `one_hot` receives a `1` at
column `seq_in_index[i]` and keeps `0` elsewhere. -/
def oneHotRow (c : Nat) : List ℚ :=
  (List.range 5).map fun j => if j = c then 1 else 0

/-- `get_one_hot(sequence)`.  The assignment
`one_hot[np.arange(seq_len), np.array(seq_in_index)] = 1` succeeds when the index
array has integer dtype (every symbol was mapped by `BASE_TO_COLUMN`) and raises
`IndexError` when some symbol was passed through as a string. -/
def get_one_hot (s : List Char) : Except String (List (List ℚ)) :=
  let idx := seq_in_index s
  if idx.all isIntIndex then
    Except.ok (idx.map fun e =>
      match e with
      | Sum.inl n => oneHotRow n
      | Sum.inr _ => [])
  else
    Except.error "IndexError: arrays used as indices must be of integer (or boolean) type"

/-! ## Phenotype encoding (`rs_encoding_to_numeric`, source lines 133-171) -/

/-- A pandas cell as it appears in the phenotype table: a true null (`NaN`),
a string, or an integer (pandas object columns mix these freely). -/
inductive PdCell where
  | null : PdCell
  | str : String → PdCell
  | int : ℤ → PdCell
deriving DecidableEq

/-- `y_all_rs.fillna('-1')`: replace nulls by the string `"-1"`. -/
def fillna_neg1 : PdCell → PdCell
  | PdCell.null => PdCell.str "-1"
  | c => c

/-- `.astype(str)`: stringify one cell the way Python `str` does
(`str(0) = "0"`, `str(-1) = "-1"`; nulls are gone after `fillna`). -/
def astype_str : PdCell → String
  | PdCell.null => "nan"
  | PdCell.str s => s
  | PdCell.int z => toString z

/-- `resistance_categories = {'R': 0, 'S': 1, '-1.0': -1, '-1': -1}`. -/
def resistance_categories : List (String × ℤ) :=
  [("R", 0), ("S", 1), ("-1.0", -1), ("-1", -1)]

/-- The effect of the replacement loop
`for key, val in resistance_categories.items(): y_all[y_all_rs == key] = val`
on one cell: every comparison is against the stringified original `y_all_rs`,
the keys are pairwise distinct, so a cell matching some key becomes that key's
integer value and any other cell keeps its stringified form (from `y_all_rs.copy()`). -/
def encodeCell (c : PdCell) : PdCell :=
  let s := astype_str (fillna_neg1 c)
  match resistance_categories.find? (fun kv => kv.1 == s) with
  | some kv => PdCell.int kv.2
  | none => PdCell.str s

/-- `rs_encoding_to_numeric` restricted to the drug columns: the elementwise
encoding of the whole table. -/
def rs_encoding_to_numeric (t : List (List PdCell)) : List (List PdCell) :=
  t.map fun row => row.map encodeCell

/-! ## Train/test split (`split_into_traintest`, source lines 402-441) -/

/-- Looking up the name `pkl_file_sparse_train` at the call
`sparse.save_npz(pkl_file_sparse_train, ...)`: the name is defined nowhere in the
module (neither is `pkl_file_sparse_test`), so evaluating it raises `NameError`. -/
def pkl_file_sparse_train_lookup : Except String String :=
  Except.error "NameError: name pkl_file_sparse_train is not defined"

/-- `split_into_traintest(X_sparse, df_geno_pheno, category)`.
`X_all = X_sparse.todense()` is a row list; after `reset_index(drop=True)` the
metadata row order matches `X_all`, and `cats` is its `category` column.
`train_indices` / `test_indices` come from `query("category==@category")` and
`query("category!=@category")`, in ascending positional order; the rows are then
selected in that order.  The subsequent `sparse.save_npz(pkl_file_sparse_train, ...)`
evaluates an undefined global and raises before the function can return. -/
def split_into_traintest {R : Type} (X_all : List R) (cats : List String)
    (category : String) : Except String (List R × List R) := do
  let train_indices := (List.range cats.length).filter fun i => cats.getD i "" = category
  let test_indices := (List.range cats.length).filter fun i => ¬ cats.getD i "" = category
  let X_train := train_indices.filterMap fun i => X_all.get? i
  let X_test := test_indices.filterMap fun i => X_all.get? i
  let _ ← pkl_file_sparse_train_lookup
  pure (X_train, X_test)

/-! ## Helper lemmas -/

theorem getD_map_of_lt {α β : Type} (l : List α) (f : α → β) (i : Nat) (d : β) (e : α)
    (h : i < l.length) : (l.map f).getD i d = f (l.getD i e) := by
  rw [List.getD_eq_getElem _ _ (by simpa using h), List.getD_eq_getElem _ _ h]
  simp

theorem BASE_TO_COLUMN_lt_5 (b : Char) (c : Nat) (h : BASE_TO_COLUMN b = some c) :
    c < 5 := by
  unfold BASE_TO_COLUMN at h
  split_ifs at h <;> simp_all <;> omega

theorem oneHotRow_facts (c : Nat) (hc : c < 5) :
    (oneHotRow c).length = 5 ∧ (oneHotRow c).count 1 = 1 ∧ (oneHotRow c).sum = 1 ∧
      ∀ j, j < 5 → (oneHotRow c).getD j 0 = if j = c then 1 else 0 := by
  interval_cases c
  case «0» =>
    have h : oneHotRow 0 = [1, 0, 0, 0, 0] := by decide
    refine ⟨by rw [h]; rfl, by rw [h]; decide, by rw [h]; norm_num, ?_⟩
    intro j hj; interval_cases j <;> rw [h] <;> decide
  case «1» =>
    have h : oneHotRow 1 = [0, 1, 0, 0, 0] := by decide
    refine ⟨by rw [h]; rfl, by rw [h]; decide, by rw [h]; norm_num, ?_⟩
    intro j hj; interval_cases j <;> rw [h] <;> decide
  case «2» =>
    have h : oneHotRow 2 = [0, 0, 1, 0, 0] := by decide
    refine ⟨by rw [h]; rfl, by rw [h]; decide, by rw [h]; norm_num, ?_⟩
    intro j hj; interval_cases j <;> rw [h] <;> decide
  case «3» =>
    have h : oneHotRow 3 = [0, 0, 0, 1, 0] := by decide
    refine ⟨by rw [h]; rfl, by rw [h]; decide, by rw [h]; norm_num, ?_⟩
    intro j hj; interval_cases j <;> rw [h] <;> decide
  case «4» =>
    have h : oneHotRow 4 = [0, 0, 0, 0, 1] := by decide
    refine ⟨by rw [h]; rfl, by rw [h]; decide, by rw [h]; norm_num, ?_⟩
    intro j hj; interval_cases j <;> rw [h] <;> decide

/-! ## Claim theorems: one-hot encoder -/

/-- C4: for every sequence over the alphabet {A, C, T, G, -} of length L,
`get_one_hot` returns an L × 5 matrix in which each row i contains exactly one 1
(row sum = 1), placed at the column given by the fixed mapping
A=0, C=1, T=2, G=3, -=4 applied to symbol i, with all other entries 0. -/
theorem C4_get_one_hot_rows (s : List Char)
    (h : ∀ b ∈ s, (BASE_TO_COLUMN b).isSome) :
    ∃ m, get_one_hot s = Except.ok m ∧ m.length = s.length ∧
      ∀ i, i < s.length →
        ∃ c, BASE_TO_COLUMN (s.getD i 'A') = some c ∧ c < 5 ∧
          (m.getD i []).length = 5 ∧ (m.getD i []).count 1 = 1 ∧
          (m.getD i []).sum = 1 ∧
          ∀ j, j < 5 → (m.getD i []).getD j 0 = if j = c then 1 else 0 := by
  have hall : (seq_in_index s).all isIntIndex = true := by
    simp only [List.all_eq_true, seq_in_index, List.mem_map]
    rintro e ⟨b, hb, rfl⟩
    have hB := h b hb
    unfold dictGetOrPassthrough
    cases hBc : BASE_TO_COLUMN b with
    | none => rw [hBc] at hB; simp at hB
    | some n => simp [isIntIndex]
  have hres : get_one_hot s = Except.ok ((seq_in_index s).map fun e =>
      match e with
      | Sum.inl n => oneHotRow n
      | Sum.inr _ => ([] : List ℚ)) := by
    unfold get_one_hot
    simp only [hall, if_true]
  refine ⟨_, hres, ?_, ?_⟩
  · simp [seq_in_index]
  · intro i hi
    have hmem : s.getD i 'A' ∈ s := by
      rw [List.getD_eq_getElem s 'A' hi]; exact List.getElem_mem hi
    have hB := h (s.getD i 'A') hmem
    cases hBc : BASE_TO_COLUMN (s.getD i 'A') with
    | none => rw [hBc] at hB; simp at hB
    | some c =>
      have hc5 := BASE_TO_COLUMN_lt_5 _ _ hBc
      refine ⟨c, rfl, hc5, ?_⟩
      have hlen : i < (seq_in_index s).length := by simpa [seq_in_index] using hi
      have hrow :
          ((seq_in_index s).map fun e =>
            match e with
            | Sum.inl n => oneHotRow n
            | Sum.inr _ => ([] : List ℚ)).getD i [] = oneHotRow c := by
        rw [getD_map_of_lt _ _ i [] (Sum.inl 0) hlen]
        have hidx : (seq_in_index s).getD i (Sum.inl 0) = Sum.inl c := by
          unfold seq_in_index
          rw [getD_map_of_lt _ _ i (Sum.inl 0) 'A' (by simpa using hi)]
          unfold dictGetOrPassthrough
          rw [hBc]
        rw [hidx]
      rw [hrow]
      exact oneHotRow_facts c hc5

/-- Witness for C4 at the concrete sequence "ACTG-". -/
theorem C4_get_one_hot_rows_witness :
    (∀ b ∈ ['A', 'C', 'T', 'G', '-'], (BASE_TO_COLUMN b).isSome) ∧
      (∃ m, get_one_hot ['A', 'C', 'T', 'G', '-'] = Except.ok m ∧
        m.length = (['A', 'C', 'T', 'G', '-'] : List Char).length ∧
        ∀ i, i < (['A', 'C', 'T', 'G', '-'] : List Char).length →
          ∃ c, BASE_TO_COLUMN ((['A', 'C', 'T', 'G', '-'] : List Char).getD i 'A') = some c ∧
            c < 5 ∧ (m.getD i []).length = 5 ∧ (m.getD i []).count 1 = 1 ∧
            (m.getD i []).sum = 1 ∧
            ∀ j, j < 5 → (m.getD i []).getD j 0 = if j = c then 1 else 0) :=
  ⟨by decide, C4_get_one_hot_rows ['A', 'C', 'T', 'G', '-'] (by decide)⟩

/-- C8 counterexample: on the sequence "N" (a symbol outside the alphabet),
`get_one_hot` does not return a result: the unmapped symbol makes the numpy index
array non-integer and the assignment raises `IndexError`. -/
theorem C8_counterexample : ¬ ∃ m, get_one_hot ['N'] = Except.ok m := by
  rintro ⟨m, hm⟩
  have heval : get_one_hot ['N'] =
      Except.error "IndexError: arrays used as indices must be of integer (or boolean) type" := rfl
  exact Except.noConfusion (heval.symm.trans hm)

/-- C8 (amended): `get_one_hot` is a pure function that returns a matrix only for
sequences over the alphabet {A, C, T, G, -}; on every sequence containing an
out-of-alphabet symbol, the symbol is passed through unmapped by the dictionary
lookup, which makes the index array non-integer, and the assignment fails with
`IndexError` instead of returning a result. -/
theorem C8_out_of_alphabet_fails (s : List Char)
    (h : ∃ b ∈ s, BASE_TO_COLUMN b = none) :
    get_one_hot s =
      Except.error "IndexError: arrays used as indices must be of integer (or boolean) type" := by
  obtain ⟨b, hb, hB⟩ := h
  have hall : (seq_in_index s).all isIntIndex = false := by
    rw [List.all_eq_false]
    refine ⟨dictGetOrPassthrough b, List.mem_map_of_mem _ hb, ?_⟩
    unfold dictGetOrPassthrough
    rw [hB]
    simp [isIntIndex]
  unfold get_one_hot
  simp [hall]

/-- Witness for C8 (amended) at the concrete sequence "AN". -/
theorem C8_out_of_alphabet_fails_witness :
    (∃ b ∈ ['A', 'N'], BASE_TO_COLUMN b = none) ∧
      get_one_hot ['A', 'N'] =
        Except.error "IndexError: arrays used as indices must be of integer (or boolean) type" :=
  ⟨by decide, C8_out_of_alphabet_fails ['A', 'N'] (by decide)⟩

/-! ## Claim theorems: phenotype encoder -/

/-- C5 counterexample: the encoder is not idempotent.  Encoding the table [["R"]]
once gives [[0]]; encoding that output again stringifies the integer 0 to "0",
which matches no replacement key, so the result is [["0"]], not [[0]]. -/
theorem C5_counterexample :
    rs_encoding_to_numeric (rs_encoding_to_numeric [[PdCell.str "R"]]) ≠
      rs_encoding_to_numeric [[PdCell.str "R"]] := by
  decide

/-- C5 (amended): the phenotype encoder maps R to 0, S to 1, and missing entries
(true nulls as well as the strings "-1" and "-1.0" after stringification) to -1;
it is idempotent only on cells that encode to -1, while re-encoding an encoded
table maps the previous outputs 0 and 1 to the strings "0" and "1". -/
theorem C5_encoding_values :
    rs_encoding_to_numeric [[PdCell.str "R", PdCell.str "S", PdCell.null,
        PdCell.str "-1", PdCell.str "-1.0"]] =
      [[PdCell.int 0, PdCell.int 1, PdCell.int (-1), PdCell.int (-1), PdCell.int (-1)]] ∧
    encodeCell (encodeCell (PdCell.str "R")) = PdCell.str "0" ∧
    encodeCell (encodeCell (PdCell.str "S")) = PdCell.str "1" ∧
    ∀ c, encodeCell c = PdCell.int (-1) →
      encodeCell (encodeCell c) = encodeCell c := by
  refine ⟨by decide, by decide, by decide, ?_⟩
  intro c hc
  rw [hc]
  decide

/-- Witness for C5 (amended): the idempotency-on-missing hypothesis discharged at
the concrete cell `null`. -/
theorem C5_encoding_values_witness :
    encodeCell PdCell.null = PdCell.int (-1) ∧
      encodeCell (encodeCell PdCell.null) = encodeCell PdCell.null :=
  ⟨by decide, C5_encoding_values.2.2.2 PdCell.null (by decide)⟩

/-! ## Claim theorems: train/test splitter -/

/-- C9 (code bug): `split_into_traintest` computes the equal/not-equal row
partition but then evaluates the undefined global `pkl_file_sparse_train` at the
`sparse.save_npz` call and raises `NameError`, so it never returns the partition
its docstring promises.  Evaluated here at a concrete two-row input. -/
theorem C9_split_raises_NameError :
    split_into_traintest [0, 1] ["train", "other"] "train" =
      (Except.error "NameError: name pkl_file_sparse_train is not defined" :
        Except String (List ℕ × List ℕ)) := rfl

/-! ## Alpha matrix (`alpha_mat`, source lines 174-221) -/

/-- `len(np.squeeze(np.where(col == v)))`: count the entries of a 1-D column equal
to `v`. -/
def countEqQ (col : List ℚ) (v : ℚ) : Nat :=
  col.countP fun x => decide (x = v)

/-- `y_cnn[:, drug]`: column `j` of the label matrix. -/
def column (y : List (List ℚ)) (j : Nat) : List ℚ :=
  y.map fun row => row.getD j 0

/-- `len(np.squeeze(np.where(...)))` applied to a match count `k`: `np.where`
yields a 1-tuple of an index array of length `k`, `np.squeeze` turns it into an
array of shape `(k,)` for `k ≠ 1` but into a 0-d array for `k = 1`, and `len` of
a 0-d array raises `TypeError`. -/
def lenSqueezeWhere (k : Nat) : Except String Nat :=
  if k = 1 then Except.error "TypeError: len() of unsized object" else Except.ok k

/-- `alphas[drug] = resistant / float(resistant + sensitive)`, the per-drug body of
the loop in `alpha_mat`; `float` division by zero raises `ZeroDivisionError`. -/
def alphaForDrug (y : List (List ℚ)) (j : Nat) : Except String ℚ := do
  let resistant ← lenSqueezeWhere (countEqQ (column y j) 0)
  let sensitive ← lenSqueezeWhere (countEqQ (column y j) 1)
  if resistant + sensitive = 0 then
    Except.error "ZeroDivisionError: float division by zero"
  else
    pure ((resistant : ℚ) / ((resistant : ℚ) + (sensitive : ℚ)))

/-- The loop `for drug in range(num_drugs)` of `alpha_mat`, collecting the
per-drug fractions left to right so the first raising drug determines the error. -/
def alphasLoop (y : List (List ℚ)) : List Nat → Except String (List ℚ)
  | [] => Except.ok []
  | j :: rest => do
    let a ← alphaForDrug y j
    let as ← alphasLoop y rest
    pure (a :: as)

/-- `num_drugs = len(drugs)` for the hard-coded 13-drug list. -/
def num_drugs : Nat := 13

/-- The fraction `count(label==0) / (count(label==0) + count(label==1))` that the
specification calls `resistant_fraction` for drug column `j`. -/
def resistant_fraction (y : List (List ℚ)) (j : Nat) : ℚ :=
  (countEqQ (column y j) 0 : ℚ) /
    ((countEqQ (column y j) 0 : ℚ) + (countEqQ (column y j) 1 : ℚ))

/-- `alpha_mat(subset_y, df_geno_pheno, weight)`.  The matrix starts as
`np.zeros_like(y_cnn)`; in each drug column the entries at label `1` become
`weight * alphas[drug]`, the entries at label `0` become `-alphas[drug]`, and all
other entries keep their initial `0`.  The `df_geno_pheno` parameter is never read
by the function body, which is why it is typed by an arbitrary `α`. -/
def alpha_mat {α : Type} (subset_y : List (List ℚ)) (df_geno_pheno : α)
    (weight : ℚ) : Except String (List (List ℚ)) := do
  let alphas ← alphasLoop subset_y (List.range num_drugs)
  pure (subset_y.map fun row =>
    (List.range num_drugs).map fun j =>
      if row.getD j 0 = 1 then weight * alphas.getD j 0
      else if row.getD j 0 = 0 then - alphas.getD j 0
      else 0)

/-! ## Helper lemmas for `alpha_mat` -/

theorem getD_range_map {β : Type} (n : Nat) (f : Nat → β) (k : Nat) (d : β)
    (h : k < n) : ((List.range n).map f).getD k d = f k := by
  rw [getD_map_of_lt _ _ k d 0 (by simpa using h)]
  rw [List.getD_eq_getElem _ _ (by simpa using h)]
  simp

theorem alphaForDrug_ok (y : List (List ℚ)) (j : Nat)
    (h1 : countEqQ (column y j) 0 ≠ 1) (h2 : countEqQ (column y j) 1 ≠ 1)
    (h3 : countEqQ (column y j) 0 + countEqQ (column y j) 1 ≠ 0) :
    alphaForDrug y j = Except.ok (resistant_fraction y j) := by
  unfold alphaForDrug lenSqueezeWhere
  rw [if_neg h1, if_neg h2]
  show (if countEqQ (column y j) 0 + countEqQ (column y j) 1 = 0 then
      (Except.error "ZeroDivisionError: float division by zero" : Except String ℚ)
    else pure ((countEqQ (column y j) 0 : ℚ) /
      ((countEqQ (column y j) 0 : ℚ) + (countEqQ (column y j) 1 : ℚ)))) =
    Except.ok (resistant_fraction y j)
  rw [if_neg h3]
  rfl

theorem alphasLoop_ok (y : List (List ℚ)) (l : List Nat)
    (h : ∀ j ∈ l, alphaForDrug y j = Except.ok (resistant_fraction y j)) :
    alphasLoop y l = Except.ok (l.map (resistant_fraction y)) := by
  induction l with
  | nil => rfl
  | cons j rest ih =>
    unfold alphasLoop
    rw [h j (List.mem_cons_self j rest), ih fun k hk => h k (List.mem_cons_of_mem j hk)]
    rfl

theorem resistant_fraction_nonneg (y : List (List ℚ)) (j : Nat) :
    0 ≤ resistant_fraction y j := by
  unfold resistant_fraction
  positivity

/-! ## Claim theorems: alpha matrix -/

/-- C2 counterexample: on a label matrix whose columns each hold one resistant
label (`0`) and two sensitive labels (`1`), `alpha_mat` raises `TypeError` instead
of producing the matrix the claim describes: for a singleton match,
`len(np.squeeze(np.where(...)))` is `len` of a 0-d array. -/
theorem C2_counterexample :
    ¬ ∃ m, alpha_mat [List.replicate 13 (0 : ℚ), List.replicate 13 1,
        List.replicate 13 1] () 1 = Except.ok m := by
  rintro ⟨m, hm⟩
  have heval : alpha_mat [List.replicate 13 (0 : ℚ), List.replicate 13 1,
      List.replicate 13 1] () 1 =
      Except.error "TypeError: len() of unsized object" := rfl
  exact Except.noConfusion (heval.symm.trans hm)

/-- C2 (amended): for every 13-column label matrix with entries in {0, 1, -1} and
every weight w, in which no drug column has exactly one 0-label or exactly one
1-label (such a singleton match makes `len(np.squeeze(np.where(...)))` raise
`TypeError`) and every drug column has at least one 0-label or 1-label, the alpha
matrix satisfies: every isolate with label 1 gets entry w × resistant_fraction
(non-negative whenever w ≥ 0), every isolate with label 0 gets entry
−resistant_fraction (≤ 0), and every isolate with sentinel label −1 keeps entry
exactly 0, where resistant_fraction = count(label==0)/(count(label==0)+count(label==1)). -/
theorem C2_alpha_mat_entries {α : Type} (y : List (List ℚ)) (d : α) (w : ℚ)
    (hcount : ∀ j, j < num_drugs → countEqQ (column y j) 0 ≠ 1 ∧
      countEqQ (column y j) 1 ≠ 1 ∧
      countEqQ (column y j) 0 + countEqQ (column y j) 1 ≠ 0) :
    ∃ m, alpha_mat y d w = Except.ok m ∧ m.length = y.length ∧
      ∀ i, i < y.length → ∀ j, j < num_drugs →
        ((y.getD i []).getD j 0 = 1 →
          (m.getD i []).getD j 0 = w * resistant_fraction y j) ∧
        ((y.getD i []).getD j 0 = 0 →
          (m.getD i []).getD j 0 = - resistant_fraction y j) ∧
        ((y.getD i []).getD j 0 = -1 → (m.getD i []).getD j 0 = 0) ∧
        - resistant_fraction y j ≤ 0 ∧
        (0 ≤ w → 0 ≤ w * resistant_fraction y j) := by
  have hloop : alphasLoop y (List.range num_drugs) =
      Except.ok ((List.range num_drugs).map (resistant_fraction y)) := by
    apply alphasLoop_ok
    intro j hj
    have hjlt : j < num_drugs := by simpa using hj
    obtain ⟨h1, h2, h3⟩ := hcount j hjlt
    exact alphaForDrug_ok y j h1 h2 h3
  have hres : alpha_mat y d w = Except.ok (y.map fun row =>
      (List.range num_drugs).map fun j =>
        if row.getD j 0 = 1 then
          w * ((List.range num_drugs).map (resistant_fraction y)).getD j 0
        else if row.getD j 0 = 0 then
          - ((List.range num_drugs).map (resistant_fraction y)).getD j 0
        else 0) := by
    unfold alpha_mat
    rw [hloop]
    rfl
  refine ⟨_, hres, by simp, ?_⟩
  intro i hi j hj
  have hrow : ((y.map fun row =>
      (List.range num_drugs).map fun j =>
        if row.getD j 0 = 1 then
          w * ((List.range num_drugs).map (resistant_fraction y)).getD j 0
        else if row.getD j 0 = 0 then
          - ((List.range num_drugs).map (resistant_fraction y)).getD j 0
        else 0).getD i []) =
      (List.range num_drugs).map fun j =>
        if (y.getD i []).getD j 0 = 1 then
          w * ((List.range num_drugs).map (resistant_fraction y)).getD j 0
        else if (y.getD i []).getD j 0 = 0 then
          - ((List.range num_drugs).map (resistant_fraction y)).getD j 0
        else 0 :=
    getD_map_of_lt _ _ i [] [] hi
  rw [hrow, getD_range_map num_drugs _ j 0 hj, getD_range_map num_drugs _ j 0 hj]
  have hrf := resistant_fraction_nonneg y j
  refine ⟨?_, ?_, ?_, by linarith, fun hw => mul_nonneg hw hrf⟩
  · intro hv; rw [if_pos hv]
  · intro hv
    rw [if_neg (by rw [hv]; norm_num), if_pos hv]
  · intro hv
    rw [if_neg (by rw [hv]; norm_num), if_neg (by rw [hv]; norm_num)]

/-- Witness for C2 (amended) at a concrete 5-isolate matrix whose columns each
count two resistant and two sensitive labels plus one missing label. -/
theorem C2_alpha_mat_entries_witness :
    (∀ j, j < num_drugs →
      countEqQ (column [List.replicate 13 (0 : ℚ), List.replicate 13 0,
        List.replicate 13 1, List.replicate 13 1, List.replicate 13 (-1)] j) 0 ≠ 1 ∧
      countEqQ (column [List.replicate 13 (0 : ℚ), List.replicate 13 0,
        List.replicate 13 1, List.replicate 13 1, List.replicate 13 (-1)] j) 1 ≠ 1 ∧
      countEqQ (column [List.replicate 13 (0 : ℚ), List.replicate 13 0,
        List.replicate 13 1, List.replicate 13 1, List.replicate 13 (-1)] j) 0 +
        countEqQ (column [List.replicate 13 (0 : ℚ), List.replicate 13 0,
          List.replicate 13 1, List.replicate 13 1, List.replicate 13 (-1)] j) 1 ≠ 0) ∧
    (∃ m, alpha_mat [List.replicate 13 (0 : ℚ), List.replicate 13 0,
        List.replicate 13 1, List.replicate 13 1, List.replicate 13 (-1)] () (2 : ℚ) =
        Except.ok m ∧
      m.length = ([List.replicate 13 (0 : ℚ), List.replicate 13 0,
        List.replicate 13 1, List.replicate 13 1, List.replicate 13 (-1)]).length ∧
      ∀ i, i < ([List.replicate 13 (0 : ℚ), List.replicate 13 0,
          List.replicate 13 1, List.replicate 13 1, List.replicate 13 (-1)]).length →
        ∀ j, j < num_drugs →
        ((([List.replicate 13 (0 : ℚ), List.replicate 13 0, List.replicate 13 1,
            List.replicate 13 1, List.replicate 13 (-1)]).getD i []).getD j 0 = 1 →
          (m.getD i []).getD j 0 = 2 * resistant_fraction [List.replicate 13 (0 : ℚ),
            List.replicate 13 0, List.replicate 13 1, List.replicate 13 1,
            List.replicate 13 (-1)] j) ∧
        ((([List.replicate 13 (0 : ℚ), List.replicate 13 0, List.replicate 13 1,
            List.replicate 13 1, List.replicate 13 (-1)]).getD i []).getD j 0 = 0 →
          (m.getD i []).getD j 0 = - resistant_fraction [List.replicate 13 (0 : ℚ),
            List.replicate 13 0, List.replicate 13 1, List.replicate 13 1,
            List.replicate 13 (-1)] j) ∧
        ((([List.replicate 13 (0 : ℚ), List.replicate 13 0, List.replicate 13 1,
            List.replicate 13 1, List.replicate 13 (-1)]).getD i []).getD j 0 = -1 →
          (m.getD i []).getD j 0 = 0) ∧
        - resistant_fraction [List.replicate 13 (0 : ℚ), List.replicate 13 0,
          List.replicate 13 1, List.replicate 13 1, List.replicate 13 (-1)] j ≤ 0 ∧
        (0 ≤ (2 : ℚ) → 0 ≤ 2 * resistant_fraction [List.replicate 13 (0 : ℚ),
          List.replicate 13 0, List.replicate 13 1, List.replicate 13 1,
          List.replicate 13 (-1)] j)) :=
  ⟨by decide, C2_alpha_mat_entries _ () 2 (by decide)⟩

/-- C10: the output of `alpha_mat` depends only on the label matrix and the
weight; the `df_geno_pheno` argument is never read, so for any two values of that
argument (even of different types) the results coincide. -/
theorem C10_alpha_mat_ignores_df {α β : Type} (subset_y : List (List ℚ))
    (d1 : α) (d2 : β) (weight : ℚ) :
    alpha_mat subset_y d1 weight = alpha_mat subset_y d2 weight := rfl

/-! ## Masked weighted binary cross-entropy
(`masked_multi_weighted_bce`, source lines 325-349)

The Keras tensors are modelled over the reals (one isolate row at a time,
matching the `axis=-1` reductions); the final float division `K.sum(...) /
num_not_missing`, which yields IEEE `NaN` (`0/0`) when the isolate has no
labeled drug, is modelled as an `Option ℝ` that is `none` exactly when the
divisor is `0`. -/

/-- `K.epsilon()`, the Keras fuzz factor `1e-07`. -/
noncomputable def Kepsilon : ℝ := 1 / 10000000

/-- `K.clip(x, lo, hi)`. -/
noncomputable def Kclip (x lo hi : ℝ) : ℝ := max lo (min x hi)

/-- `y_true_ = K.cast(K.greater(alpha, 0.), K.floatx())`. -/
noncomputable def y_true_of_alpha (a : ℝ) : ℝ := if 0 < a then 1 else 0

/-- `mask = K.cast(K.not_equal(alpha, 0.), K.floatx())`. -/
noncomputable def maskOf (a : ℝ) : ℝ := if a = 0 then 0 else 1

/-- One component of
`bce = - alpha * y_true_ * K.log(y_pred) - (1.0 - alpha) * (1.0 - y_true_) * K.log(1.0 - y_pred)`
after `y_pred = K.clip(y_pred, K.epsilon(), 1.0 - K.epsilon())` and
`alpha = K.abs(alpha)`. -/
noncomputable def bceTerm (a p : ℝ) : ℝ :=
  let yp := Kclip p Kepsilon (1 - Kepsilon)
  let yt := y_true_of_alpha a
  let w := |a|;
  - (w * yt * Real.log yp) - (1 - w) * (1 - yt) * Real.log (1 - yp)

/-- `masked_multi_weighted_bce(alpha, y_pred)` on one isolate row:
`K.sum(bce * mask, axis=-1) / K.sum(mask, axis=-1)`, with the `0/0 = NaN`
case of an unlabeled isolate modelled as `none`. -/
noncomputable def masked_multi_weighted_bce (alpha y_pred : List ℝ) : Option ℝ :=
  let masked_bce := (alpha.zip y_pred).map fun ap => bceTerm ap.1 ap.2 * maskOf ap.1
  let num_not_missing := (alpha.map maskOf).sum
  if num_not_missing = 0 then none else some (masked_bce.sum / num_not_missing)

/-- Modelled from the claim wording of C1 (not from the source): the per-drug
binary cross-entropy weighted uniformly by `weight = |alpha|`, averaged over the
labeled drugs only. -/
noncomputable def bceTermClaimWeighted (a p : ℝ) : ℝ :=
  let yp := Kclip p Kepsilon (1 - Kepsilon)
  let yt := y_true_of_alpha a;
  |a| * (- (yt * Real.log yp) - (1 - yt) * Real.log (1 - yp))

/-- Modelled from the claim wording of C1: sum of the `|alpha|`-weighted BCE over
the labeled drugs divided by the number of labeled drugs. -/
noncomputable def claim_mean_bce (alpha y_pred : List ℝ) : Option ℝ :=
  let labeled := (alpha.zip y_pred).filter fun ap => decide (ap.1 ≠ 0)
  if labeled.length = 0 then none
  else some ((labeled.map fun ap => bceTermClaimWeighted ap.1 ap.2).sum / labeled.length)

/-- The amended specification-side loss: the mean over only the labeled drugs of
the source's per-drug term, whose positive-label part carries weight `|alpha|`
and whose negative-label part carries weight `1 - |alpha|`. -/
noncomputable def spec_mean_bce (alpha y_pred : List ℝ) : Option ℝ :=
  let labeled := (alpha.zip y_pred).filter fun ap => decide (ap.1 ≠ 0)
  if labeled.length = 0 then none
  else some ((labeled.map fun ap => bceTerm ap.1 ap.2).sum / labeled.length)

/-! ## Helper lemmas for the loss -/

theorem sum_masked_eq_filter (l : List (ℝ × ℝ)) :
    (l.map fun ap => bceTerm ap.1 ap.2 * maskOf ap.1).sum =
      ((l.filter fun ap => decide (ap.1 ≠ 0)).map fun ap => bceTerm ap.1 ap.2).sum := by
  induction l with
  | nil => rfl
  | cons hd tl ih =>
    by_cases h : hd.1 = 0
    · have hm : maskOf hd.1 = 0 := by simp [maskOf, h]
      have hd0 : (decide (hd.1 ≠ 0)) = false := by simp [h]
      rw [List.map_cons, List.sum_cons, hm, mul_zero, zero_add, ih,
        List.filter_cons, hd0]
      simp
    · have hm : maskOf hd.1 = 1 := by simp [maskOf, h]
      have hd1 : (decide (hd.1 ≠ 0)) = true := by simp [h]
      rw [List.map_cons, List.sum_cons, hm, mul_one, ih, List.filter_cons, hd1]
      simp

theorem mask_sum_eq_filter_length (alpha y_pred : List ℝ)
    (h : alpha.length = y_pred.length) :
    (alpha.map maskOf).sum =
      (((alpha.zip y_pred).filter fun ap => decide (ap.1 ≠ 0)).length : ℝ) := by
  induction alpha generalizing y_pred with
  | nil => simp
  | cons a tl ih =>
    cases y_pred with
    | nil => simp at h
    | cons p ps =>
      have hl : tl.length = ps.length := by simpa using h
      by_cases ha : a = 0
      · have hm : maskOf a = 0 := by simp [maskOf, ha]
        have hd0 : (decide (((a, p) : ℝ × ℝ).1 ≠ 0)) = false := by simp [ha]
        rw [List.map_cons, List.sum_cons, hm, zero_add, ih ps hl,
          List.zip_cons_cons, List.filter_cons, hd0]
        simp
      · have hm : maskOf a = 1 := by simp [maskOf, ha]
        have hd1 : (decide (((a, p) : ℝ × ℝ).1 ≠ 0)) = true := by simp [ha]
        rw [List.map_cons, List.sum_cons, hm, ih ps hl, List.zip_cons_cons,
          List.filter_cons, hd1]
        simp
        ring

/-! ## Claim theorems: masked weighted BCE -/

/-- C1 counterexample: at the single-drug row `alpha = [-1]`, `y_pred = [1/2]`,
the code's loss is `0` (the negative-label term carries weight `1 - |alpha| = 0`)
while the claim's uniformly `|alpha|`-weighted mean is `log 2 ≠ 0`. -/
theorem C1_counterexample :
    masked_multi_weighted_bce [-1] [1/2] ≠ claim_mean_bce [-1] [1/2] := by
  have hclip : Kclip (1/2) Kepsilon (1 - Kepsilon) = 1/2 := by
    unfold Kclip Kepsilon
    rw [min_eq_left (by norm_num), max_eq_right (by norm_num)]
  have hyt : y_true_of_alpha (-1) = 0 := by
    unfold y_true_of_alpha
    rw [if_neg (by norm_num)]
  have habs : |(-1 : ℝ)| = 1 := by norm_num
  have hbce : bceTerm (-1) (1/2) = 0 := by
    simp only [bceTerm, hclip, hyt, habs]
    ring
  have hclaim : bceTermClaimWeighted (-1) (1/2) = Real.log 2 := by
    simp only [bceTermClaimWeighted, hclip, hyt, habs]
    rw [show (1 : ℝ) - 1/2 = (2 : ℝ)⁻¹ by norm_num, Real.log_inv]
    ring
  have hmask : maskOf (-1 : ℝ) = 1 := by
    unfold maskOf
    rw [if_neg (by norm_num)]
  have hlhs : masked_multi_weighted_bce [-1] [1/2] = some 0 := by
    simp only [masked_multi_weighted_bce, List.zip_cons_cons, List.zip_nil_right,
      List.map_cons, List.map_nil, List.sum_cons, List.sum_nil]
    rw [hbce, hmask]
    norm_num
  have hrhs : claim_mean_bce [-1] [1/2] = some (Real.log 2) := by
    have hne : ((-1 : ℝ)) ≠ 0 := by norm_num
    simp only [claim_mean_bce, List.zip_cons_cons, List.zip_nil_right]
    rw [List.filter_cons_of_pos (by simpa using hne), List.filter_nil]
    simp only [List.map_cons, List.map_nil, List.sum_cons, List.sum_nil, List.length_cons,
      List.length_nil]
    rw [hclaim]
    norm_num
  rw [hlhs, hrhs]
  intro hcontra
  have h0 : (0 : ℝ) = Real.log 2 := Option.some.inj hcontra
  exact (ne_of_gt (Real.log_pos (by norm_num))) h0.symm

/-- C1 (amended): for every alpha row (values in [-1,1], 0 meaning no label) and
every prediction vector of the same shape, `masked_multi_weighted_bce` returns,
per isolate, the sum over drugs of the per-drug binary cross-entropy — whose
positive-label term is weighted by `|alpha|` and whose negative-label term is
weighted by `1 − |alpha|` (with y_true = 1 iff alpha > 0, y_pred clipped away
from exactly 0 and 1, the BCE zeroed for drugs with alpha = 0) — divided by the
number of drugs with alpha ≠ 0 for that isolate: the mean over only the labeled
drugs, not over all drugs. -/
theorem C1_masked_bce_is_mean_over_labeled (alpha y_pred : List ℝ)
    (h : alpha.length = y_pred.length) :
    masked_multi_weighted_bce alpha y_pred = spec_mean_bce alpha y_pred := by
  simp only [masked_multi_weighted_bce, spec_mean_bce]
  rw [sum_masked_eq_filter, mask_sum_eq_filter_length alpha y_pred h]
  by_cases hc : ((alpha.zip y_pred).filter fun ap => decide (ap.1 ≠ 0)).length = 0
  · rw [if_pos (Nat.cast_eq_zero.mpr hc), if_pos hc]
  · rw [if_neg (fun hx => hc (Nat.cast_eq_zero.mp hx)), if_neg hc]

/-- Witness for C1 (amended) at `alpha = [1, 0]`, `y_pred = [1/2, 1/2]`. -/
theorem C1_masked_bce_is_mean_over_labeled_witness :
    ([(1 : ℝ), 0]).length = ([(1 : ℝ)/2, 1/2]).length ∧
      masked_multi_weighted_bce [(1 : ℝ), 0] [1/2, 1/2] =
        spec_mean_bce [(1 : ℝ), 0] [1/2, 1/2] :=
  ⟨rfl, C1_masked_bce_is_mean_over_labeled [(1 : ℝ), 0] [1/2, 1/2] rfl⟩

/-- C7: for every isolate whose alpha row is all zeros (no labeled drug),
`masked_multi_weighted_bce` divides by a zero count of labeled drugs, yielding
the undefined result `none` (IEEE `0/0 = NaN`); it never silently returns a 0
loss for such an isolate. -/
theorem C7_all_zero_alpha_is_nan (alpha y_pred : List ℝ)
    (h : ∀ a ∈ alpha, a = 0) :
    masked_multi_weighted_bce alpha y_pred = none ∧
      masked_multi_weighted_bce alpha y_pred ≠ some 0 := by
  have hnum : (alpha.map maskOf).sum = 0 := by
    induction alpha with
    | nil => simp
    | cons a tl ih =>
      have ha : a = 0 := h a (List.mem_cons_self a tl)
      have htl : (tl.map maskOf).sum = 0 :=
        ih fun b hb => h b (List.mem_cons_of_mem a hb)
      simp [maskOf, ha, htl]
  have hnone : masked_multi_weighted_bce alpha y_pred = none := by
    simp only [masked_multi_weighted_bce]
    rw [hnum]
    simp
  exact ⟨hnone, by rw [hnone]; simp⟩

/-- Witness for C7 at the all-zero three-drug row. -/
theorem C7_all_zero_alpha_is_nan_witness :
    (∀ a ∈ [(0 : ℝ), 0, 0], a = 0) ∧
      (masked_multi_weighted_bce [(0 : ℝ), 0, 0] [1/2, 1/2, 1/2] = none ∧
        masked_multi_weighted_bce [(0 : ℝ), 0, 0] [1/2, 1/2, 1/2] ≠ some 0) :=
  ⟨by simp, C7_all_zero_alpha_is_nan [(0 : ℝ), 0, 0] [1/2, 1/2, 1/2] (by simp)⟩

/-! ## Threshold selection (`get_threshold_val`, source lines 444-502)

The numpy float arrays are idealised as rationals.  The `let`-bound
intermediate arrays of the source are top-level definitions here. -/

/-- The selected operating point: the dict
`{'threshold': ..., 'spec': ..., 'sens': ...}` returned by `get_threshold_val`. -/
structure ThresholdResult where
  threshold : ℚ
  spec : ℚ
  sens : ℚ
deriving DecidableEq

/-- `thresholds = np.linspace(0, 1, 101)`: the 101 evenly spaced candidate
thresholds `k/100`. -/
def thresholds : List ℚ :=
  (List.range 101).map fun k : ℕ => (k : ℚ) / 100

/-- The inner loop's `fp_` count at one threshold: pairs `(y_true[i], y_pred[i])`
with `y_pred[i] < threshold` and `y_true[i] == 1`. -/
def fpCount (ys : List (ℚ × ℚ)) (t : ℚ) : Nat :=
  ys.countP fun yp => decide (yp.2 < t ∧ yp.1 = 1)

/-- The inner loop's `tp_` count at one threshold: pairs `(y_true[i], y_pred[i])`
with `y_pred[i] < threshold` and `y_true[i] == 0`. -/
def tpCount (ys : List (ℚ × ℚ)) (t : ℚ) : Nat :=
  ys.countP fun yp => decide (yp.2 < t ∧ yp.1 = 0)

/-- `num_sensitive = np.sum(y_true == 1)`. -/
def numSensitive (y_true : List ℚ) : Nat :=
  y_true.countP fun v => decide (v = 1)

/-- `num_resistant = np.sum(y_true == 0)`. -/
def numResistant (y_true : List ℚ) : Nat :=
  y_true.countP fun v => decide (v = 0)

/-- `fpr_`: the list `fp_ / float(num_sensitive)` over the 101 thresholds. -/
def fprList (y_true y_pred : List ℚ) : List ℚ :=
  thresholds.map fun t => (fpCount (y_true.zip y_pred) t : ℚ) / (numSensitive y_true : ℚ)

/-- `tpr_`: the list `tp_ / float(num_resistant)` over the 101 thresholds. -/
def tprList (y_true y_pred : List ℚ) : List ℚ :=
  thresholds.map fun t => (tpCount (y_true.zip y_pred) t : ℚ) / (numResistant y_true : ℚ)

/-- `sens_spec_sum = (1 - fpr_) + tpr_`, the per-threshold objective array
(`valid_inds = np.arange(101)` keeps every index). -/
def sumsList (y_true y_pred : List ℚ) : List ℚ :=
  (List.range 101).map fun k =>
    (1 - (fprList y_true y_pred).getD k 0) + (tprList y_true y_pred).getD k 0

/-- `best_sens_spec_sum = np.max(sens_spec_sum[valid_inds])`. -/
def bestVal (y_true y_pred : List ℚ) : ℚ :=
  (sumsList y_true y_pred).foldl max ((sumsList y_true y_pred).headD 0)

/-- `best_inds = np.where(best_sens_spec_sum == sens_spec_sum[valid_inds])`:
the ascending list of indices attaining the maximum. -/
def bestInds (y_true y_pred : List ℚ) : List Nat :=
  (List.range 101).filter fun k =>
    decide ((sumsList y_true y_pred).getD k 0 = bestVal y_true y_pred)

/-- The selected index: a unique maximiser is taken as is (`np.squeeze` of a
one-element index array); on ties the source takes
`np.array(np.squeeze(best_inds))[-1]`, the last (largest) tied index. -/
def bestInd (y_true y_pred : List ℚ) : Nat :=
  if (bestInds y_true y_pred).length = 1 then (bestInds y_true y_pred).headD 0
  else (bestInds y_true y_pred).getLastD 0

/-- The claim's objective `(1 − FP/num_sensitive) + TP/num_resistant` at one
threshold value. -/
def sensSpecSum (y_true y_pred : List ℚ) (t : ℚ) : ℚ :=
  (1 - (fpCount (y_true.zip y_pred) t : ℚ) / (numSensitive y_true : ℚ)) +
    (tpCount (y_true.zip y_pred) t : ℚ) / (numResistant y_true : ℚ)

/-- `get_threshold_val(y_true, y_pred)`.  `fp_ / float(num_sensitive)` (and the
`tp_` analogue) raise `ZeroDivisionError` when a class is absent; the counts do
not depend on the threshold, so the check is hoisted in front. -/
def get_threshold_val (y_true y_pred : List ℚ) : Except String ThresholdResult :=
  if numSensitive y_true = 0 ∨ numResistant y_true = 0 then
    Except.error "ZeroDivisionError: float division by zero"
  else
    Except.ok
      { threshold := thresholds.getD (bestInd y_true y_pred) 0,
        spec := 1 - (fprList y_true y_pred).getD (bestInd y_true y_pred) 0,
        sens := (tprList y_true y_pred).getD (bestInd y_true y_pred) 0 }

/-! ## Helper lemmas for the threshold selector -/

theorem foldl_max_init_le {α : Type} [LinearOrder α] :
    ∀ (l : List α) (b : α), b ≤ l.foldl max b := by
  intro l
  induction l with
  | nil => intro b; exact le_refl b
  | cons a tl ih =>
    intro b
    exact le_trans (le_max_left b a) (ih (max b a))

theorem foldl_max_mem_le {α : Type} [LinearOrder α] :
    ∀ (l : List α) (b : α) (x : α), x ∈ l → x ≤ l.foldl max b := by
  intro l
  induction l with
  | nil => intro b x hx; exact absurd hx (List.not_mem_nil x)
  | cons a tl ih =>
    intro b x hx
    rcases List.mem_cons.mp hx with hxa | hxtl
    · subst hxa
      exact le_trans (le_max_right b x) (foldl_max_init_le tl (max b x))
    · exact ih (max b a) x hxtl

theorem foldl_max_mem_or {α : Type} [LinearOrder α] :
    ∀ (l : List α) (b : α), l.foldl max b = b ∨ l.foldl max b ∈ l := by
  intro l
  induction l with
  | nil => intro b; exact Or.inl rfl
  | cons a tl ih =>
    intro b
    rcases ih (max b a) with h | h
    · rw [List.foldl_cons, h]
      rcases max_choice b a with hb | ha
      · exact Or.inl hb
      · exact Or.inr (by rw [ha]; exact List.mem_cons_self a tl)
    · exact Or.inr (List.mem_cons_of_mem a h)

theorem getLastD_mem_cons : ∀ (tl : List Nat) (a : Nat), tl.getLastD a ∈ a :: tl := by
  intro tl
  induction tl with
  | nil => intro a; exact List.mem_cons_self a []
  | cons b tl2 ih =>
    intro a
    rw [List.getLastD_cons]
    exact List.mem_cons_of_mem a (ih b)

theorem getLastD_default_irrel (tl : List Nat) (h : tl ≠ []) (a : Nat) :
    tl.getLastD a = tl.getLastD 0 := by
  cases tl with
  | nil => exact absurd rfl h
  | cons b tl2 => rw [List.getLastD_cons, List.getLastD_cons]

theorem sorted_le_getLastD : ∀ (l : List Nat), l.Pairwise (· < ·) →
    ∀ j ∈ l, j ≤ l.getLastD 0 := by
  intro l
  induction l with
  | nil => intro _ j hj; exact absurd hj (List.not_mem_nil j)
  | cons a tl ih =>
    intro hp j hj
    have ha : ∀ b ∈ tl, a < b := (List.pairwise_cons.mp hp).1
    have htl : tl.Pairwise (· < ·) := (List.pairwise_cons.mp hp).2
    rw [List.getLastD_cons]
    rcases List.mem_cons.mp hj with hja | hjtl
    · subst hja
      rcases List.mem_cons.mp (getLastD_mem_cons tl j) with he | hm
      · exact le_of_eq he.symm
      · exact le_of_lt (ha _ hm)
    · cases tl with
      | nil => exact absurd hjtl (List.not_mem_nil j)
      | cons b tl2 =>
        rw [getLastD_default_irrel (b :: tl2) (List.cons_ne_nil b tl2) a]
        exact ih htl j hjtl

theorem headD_eq_getLastD_of_length_one (l : List Nat) (h : l.length = 1) :
    l.headD 0 = l.getLastD 0 := by
  rcases List.length_eq_one.mp h with ⟨a, rfl⟩
  rfl

theorem thresholds_length : thresholds.length = 101 := by
  unfold thresholds
  rw [List.length_map, List.length_range]

theorem thresholds_getD (k : Nat) (hk : k < 101) :
    thresholds.getD k 0 = (k : ℚ) / 100 := by
  unfold thresholds
  exact getD_range_map 101 _ k 0 hk

theorem fprList_getD (y_true y_pred : List ℚ) (k : Nat) (hk : k < 101) :
    (fprList y_true y_pred).getD k 0 =
      (fpCount (y_true.zip y_pred) ((k : ℚ) / 100) : ℚ) / (numSensitive y_true : ℚ) := by
  unfold fprList
  rw [getD_map_of_lt _ _ k 0 0 (by rw [thresholds_length]; exact hk), thresholds_getD k hk]

theorem tprList_getD (y_true y_pred : List ℚ) (k : Nat) (hk : k < 101) :
    (tprList y_true y_pred).getD k 0 =
      (tpCount (y_true.zip y_pred) ((k : ℚ) / 100) : ℚ) / (numResistant y_true : ℚ) := by
  unfold tprList
  rw [getD_map_of_lt _ _ k 0 0 (by rw [thresholds_length]; exact hk), thresholds_getD k hk]

theorem sumsList_getD (y_true y_pred : List ℚ) (k : Nat) (hk : k < 101) :
    (sumsList y_true y_pred).getD k 0 = sensSpecSum y_true y_pred ((k : ℚ) / 100) := by
  unfold sumsList
  rw [getD_range_map 101 _ k 0 hk, fprList_getD y_true y_pred k hk,
    tprList_getD y_true y_pred k hk]
  rfl

theorem sumsList_mem_getD (y_true y_pred : List ℚ) (x : ℚ)
    (hx : x ∈ sumsList y_true y_pred) :
    ∃ k : ℕ, k < 101 ∧ (sumsList y_true y_pred).getD k 0 = x := by
  rcases List.mem_map.mp hx with ⟨k, hk, hval⟩
  have hk101 : k < 101 := List.mem_range.mp hk
  refine ⟨k, hk101, ?_⟩
  unfold sumsList
  rw [getD_range_map 101 _ k 0 hk101]
  exact hval

theorem bestVal_mem (y_true y_pred : List ℚ) : bestVal y_true y_pred ∈ sumsList y_true y_pred := by
  unfold bestVal
  rcases foldl_max_mem_or (sumsList y_true y_pred) ((sumsList y_true y_pred).headD 0) with h | h
  · rw [h]
    have hne : sumsList y_true y_pred ≠ [] := by
      unfold sumsList
      simp [List.range_succ]
    cases hl : sumsList y_true y_pred with
    | nil => exact absurd hl hne
    | cons a tl => exact List.mem_cons_self a tl
  · exact h

theorem le_bestVal (y_true y_pred : List ℚ) (x : ℚ) (hx : x ∈ sumsList y_true y_pred) :
    x ≤ bestVal y_true y_pred :=
  foldl_max_mem_le _ _ x hx

theorem bestInds_ne_nil (y_true y_pred : List ℚ) : bestInds y_true y_pred ≠ [] := by
  rcases sumsList_mem_getD y_true y_pred _ (bestVal_mem y_true y_pred) with ⟨k, hk, hval⟩
  have hmem : k ∈ bestInds y_true y_pred := by
    unfold bestInds
    refine List.mem_filter.mpr ⟨List.mem_range.mpr hk, ?_⟩
    exact decide_eq_true hval
  exact List.ne_nil_of_mem hmem

theorem bestInds_pairwise (y_true y_pred : List ℚ) :
    (bestInds y_true y_pred).Pairwise (· < ·) := by
  unfold bestInds
  exact List.Pairwise.sublist (List.filter_sublist _) (List.pairwise_lt_range 101)

theorem bestInd_eq_getLastD (y_true y_pred : List ℚ) :
    bestInd y_true y_pred = (bestInds y_true y_pred).getLastD 0 := by
  unfold bestInd
  by_cases h : (bestInds y_true y_pred).length = 1
  · rw [if_pos h]
    exact headD_eq_getLastD_of_length_one _ h
  · rw [if_neg h]

theorem bestInd_mem (y_true y_pred : List ℚ) :
    bestInd y_true y_pred ∈ bestInds y_true y_pred := by
  rw [bestInd_eq_getLastD]
  cases hl : bestInds y_true y_pred with
  | nil => exact absurd hl (bestInds_ne_nil y_true y_pred)
  | cons a tl =>
    rw [List.getLastD_cons]
    exact getLastD_mem_cons tl a

theorem sumsList_getD_mem (y_true y_pred : List ℚ) (j : Nat) (hj : j < 101) :
    (sumsList y_true y_pred).getD j 0 ∈ sumsList y_true y_pred := by
  unfold sumsList
  rw [getD_range_map 101 _ j 0 hj]
  exact List.mem_map_of_mem _ (List.mem_range.mpr hj)

theorem bestInds_spec (y_true y_pred : List ℚ) (k : Nat)
    (hk : k ∈ bestInds y_true y_pred) :
    k < 101 ∧ (sumsList y_true y_pred).getD k 0 = bestVal y_true y_pred := by
  unfold bestInds at hk
  rcases List.mem_filter.mp hk with ⟨hr, hd⟩
  exact ⟨List.mem_range.mp hr, of_decide_eq_true hd⟩

/-! ## Claim theorem: threshold selector -/

/-- C3: `get_threshold_val` sweeps 101 thresholds evenly spaced on [0,1],
classifies a sample as predicted-resistant iff its score is strictly less than
the threshold, scores each threshold by (1 − FP/num_sensitive) + TP/num_resistant,
and returns a threshold maximizing this objective; when several thresholds are
tied at the maximum it returns the last (highest) tied threshold, together with
the specificity and sensitivity achieved there. -/
theorem C3_get_threshold_val_argmax_last (y_true y_pred : List ℚ)
    (hlen : y_true.length = y_pred.length)
    (hs : numSensitive y_true ≠ 0) (hr : numResistant y_true ≠ 0) :
    ∃ k : ℕ, k < 101 ∧
      get_threshold_val y_true y_pred = Except.ok
        { threshold := (k : ℚ) / 100,
          spec := 1 - (fpCount (y_true.zip y_pred) ((k : ℚ) / 100) : ℚ) /
            (numSensitive y_true : ℚ),
          sens := (tpCount (y_true.zip y_pred) ((k : ℚ) / 100) : ℚ) /
            (numResistant y_true : ℚ) } ∧
      (∀ j : ℕ, j < 101 →
        sensSpecSum y_true y_pred ((j : ℚ) / 100) ≤ sensSpecSum y_true y_pred ((k : ℚ) / 100)) ∧
      (∀ j : ℕ, j < 101 →
        sensSpecSum y_true y_pred ((j : ℚ) / 100) = sensSpecSum y_true y_pred ((k : ℚ) / 100) →
        j ≤ k) := by
  obtain ⟨hk101, hkval⟩ := bestInds_spec y_true y_pred _ (bestInd_mem y_true y_pred)
  refine ⟨bestInd y_true y_pred, hk101, ?_, ?_, ?_⟩
  · unfold get_threshold_val
    rw [if_neg (by push_neg; exact ⟨hs, hr⟩)]
    rw [thresholds_getD _ hk101, fprList_getD y_true y_pred _ hk101,
      tprList_getD y_true y_pred _ hk101]
  · intro j hj
    have hjval : sensSpecSum y_true y_pred ((j : ℚ) / 100) =
        (sumsList y_true y_pred).getD j 0 := (sumsList_getD y_true y_pred j hj).symm
    rw [hjval, ← sumsList_getD y_true y_pred _ hk101, hkval]
    exact le_bestVal y_true y_pred _ (sumsList_getD_mem y_true y_pred j hj)
  · intro j hj heq
    have hjmem : j ∈ bestInds y_true y_pred := by
      unfold bestInds
      refine List.mem_filter.mpr ⟨List.mem_range.mpr hj, decide_eq_true ?_⟩
      rw [sumsList_getD y_true y_pred j hj, heq, ← sumsList_getD y_true y_pred _ hk101]
      exact hkval
    rw [bestInd_eq_getLastD]
    exact sorted_le_getLastD _ (bestInds_pairwise y_true y_pred) j hjmem

/-- Evaluation of the specification example: on y_true = [0,0,1,1],
y_pred = [0.1, 0.2, 0.8, 0.9] the selector returns the highest tied threshold
0.8 with perfect sensitivity and specificity. -/
theorem C3_example_eval :
    get_threshold_val [(0 : ℚ), 0, 1, 1] [1/10, 2/10, 8/10, 9/10] =
      Except.ok { threshold := 4/5, spec := 1, sens := 1 } := by
  have hns : numSensitive [(0 : ℚ), 0, 1, 1] = 2 := by decide
  have hnr : numResistant [(0 : ℚ), 0, 1, 1] = 2 := by decide
  have hS80 : sensSpecSum [(0 : ℚ), 0, 1, 1] [1/10, 2/10, 8/10, 9/10]
      (((80 : ℕ) : ℚ)/100) = 2 := by
    norm_num [sensSpecSum, fpCount, tpCount, numSensitive, numResistant, List.countP_cons]
  have hSlate : ∀ j : ℕ, 81 ≤ j → j ≤ 100 →
      sensSpecSum [(0 : ℚ), 0, 1, 1] [1/10, 2/10, 8/10, 9/10] ((j : ℚ)/100) < 2 := by
    intro j h1 h2
    interval_cases j <;>
      norm_num [sensSpecSum, fpCount, tpCount, numSensitive, numResistant, List.countP_cons]
  have hSle : ∀ t : ℚ, sensSpecSum [(0 : ℚ), 0, 1, 1] [1/10, 2/10, 8/10, 9/10] t ≤ 2 := by
    intro t
    have htp : tpCount (([(0 : ℚ), 0, 1, 1]).zip [(1 : ℚ)/10, 2/10, 8/10, 9/10]) t ≤ 2 := by
      have hq : (([(0 : ℚ), 0, 1, 1]).zip [(1 : ℚ)/10, 2/10, 8/10, 9/10]).countP
          (fun yp => decide (yp.1 = 0)) = 2 := by decide
      refine le_trans ?_ (le_of_eq hq)
      apply List.countP_mono_left
      intro a _ h
      simp only [decide_eq_true_eq] at h ⊢
      exact h.2
    have hfp : (0 : ℚ) ≤
        (fpCount (([(0 : ℚ), 0, 1, 1]).zip [(1 : ℚ)/10, 2/10, 8/10, 9/10]) t : ℚ) :=
      Nat.cast_nonneg _
    have htpq : ((tpCount (([(0 : ℚ), 0, 1, 1]).zip [(1 : ℚ)/10, 2/10, 8/10, 9/10]) t : ℕ) : ℚ) ≤ 2 := by
      exact_mod_cast htp
    unfold sensSpecSum
    rw [hns, hnr]
    push_cast
    have hfp2 : (0 : ℚ) ≤
        (fpCount (([(0 : ℚ), 0, 1, 1]).zip [(1 : ℚ)/10, 2/10, 8/10, 9/10]) t : ℚ) / 2 :=
      div_nonneg hfp (by norm_num)
    linarith
  obtain ⟨hk101, hkval⟩ := bestInds_spec _ _ _
    (bestInd_mem [(0 : ℚ), 0, 1, 1] [1/10, 2/10, 8/10, 9/10])
  have hSk : sensSpecSum [(0 : ℚ), 0, 1, 1] [1/10, 2/10, 8/10, 9/10]
      ((bestInd [(0 : ℚ), 0, 1, 1] [1/10, 2/10, 8/10, 9/10] : ℚ)/100) =
      bestVal [(0 : ℚ), 0, 1, 1] [1/10, 2/10, 8/10, 9/10] := by
    rw [← sumsList_getD _ _ _ hk101]
    exact hkval
  have hge2 : (2 : ℚ) ≤ bestVal [(0 : ℚ), 0, 1, 1] [1/10, 2/10, 8/10, 9/10] := by
    have hm := le_bestVal [(0 : ℚ), 0, 1, 1] [1/10, 2/10, 8/10, 9/10] _
      (sumsList_getD_mem [(0 : ℚ), 0, 1, 1] [1/10, 2/10, 8/10, 9/10] 80 (by norm_num))
    rw [sumsList_getD _ _ 80 (by norm_num), hS80] at hm
    exact hm
  have hSk2 : sensSpecSum [(0 : ℚ), 0, 1, 1] [1/10, 2/10, 8/10, 9/10]
      ((bestInd [(0 : ℚ), 0, 1, 1] [1/10, 2/10, 8/10, 9/10] : ℚ)/100) = 2 :=
    le_antisymm (hSle _) (by rw [hSk]; exact hge2)
  have hbv2 : bestVal [(0 : ℚ), 0, 1, 1] [1/10, 2/10, 8/10, 9/10] = 2 := by
    rw [← hSk]
    exact hSk2
  have h80mem : (80 : ℕ) ∈ bestInds [(0 : ℚ), 0, 1, 1] [1/10, 2/10, 8/10, 9/10] := by
    unfold bestInds
    refine List.mem_filter.mpr ⟨List.mem_range.mpr (by norm_num), decide_eq_true ?_⟩
    rw [sumsList_getD _ _ 80 (by norm_num), hS80, hbv2]
  have h80le : (80 : ℕ) ≤ bestInd [(0 : ℚ), 0, 1, 1] [1/10, 2/10, 8/10, 9/10] := by
    rw [bestInd_eq_getLastD]
    exact sorted_le_getLastD _ (bestInds_pairwise _ _) 80 h80mem
  have hk80 : bestInd [(0 : ℚ), 0, 1, 1] [1/10, 2/10, 8/10, 9/10] = 80 := by
    by_contra hne
    have h81 : 81 ≤ bestInd [(0 : ℚ), 0, 1, 1] [1/10, 2/10, 8/10, 9/10] := by omega
    have hlt := hSlate _ h81 (by omega)
    rw [hSk2] at hlt
    exact lt_irrefl _ hlt
  unfold get_threshold_val
  rw [if_neg (by simp [hns, hnr])]
  rw [hk80, thresholds_getD 80 (by norm_num), fprList_getD _ _ 80 (by norm_num),
    tprList_getD _ _ 80 (by norm_num), hns, hnr]
  norm_num [fpCount, tpCount, List.countP_cons]

/-- Witness for C3 at the concrete example y_true = [0,0,1,1],
y_pred = [0.1, 0.2, 0.8, 0.9]. -/
theorem C3_get_threshold_val_argmax_last_witness :
    (([(0 : ℚ), 0, 1, 1]).length = ([(1 : ℚ)/10, 2/10, 8/10, 9/10]).length ∧
      numSensitive [(0 : ℚ), 0, 1, 1] ≠ 0 ∧ numResistant [(0 : ℚ), 0, 1, 1] ≠ 0) ∧
    (∃ k : ℕ, k < 101 ∧
      get_threshold_val [(0 : ℚ), 0, 1, 1] [1/10, 2/10, 8/10, 9/10] = Except.ok
        { threshold := (k : ℚ) / 100,
          spec := 1 - (fpCount (([(0 : ℚ), 0, 1, 1]).zip [1/10, 2/10, 8/10, 9/10])
            ((k : ℚ) / 100) : ℚ) / (numSensitive [(0 : ℚ), 0, 1, 1] : ℚ),
          sens := (tpCount (([(0 : ℚ), 0, 1, 1]).zip [1/10, 2/10, 8/10, 9/10])
            ((k : ℚ) / 100) : ℚ) / (numResistant [(0 : ℚ), 0, 1, 1] : ℚ) } ∧
      (∀ j : ℕ, j < 101 →
        sensSpecSum [(0 : ℚ), 0, 1, 1] [1/10, 2/10, 8/10, 9/10] ((j : ℚ) / 100) ≤
          sensSpecSum [(0 : ℚ), 0, 1, 1] [1/10, 2/10, 8/10, 9/10] ((k : ℚ) / 100)) ∧
      (∀ j : ℕ, j < 101 →
        sensSpecSum [(0 : ℚ), 0, 1, 1] [1/10, 2/10, 8/10, 9/10] ((j : ℚ) / 100) =
          sensSpecSum [(0 : ℚ), 0, 1, 1] [1/10, 2/10, 8/10, 9/10] ((k : ℚ) / 100) →
        j ≤ k)) ∧
    get_threshold_val [(0 : ℚ), 0, 1, 1] [1/10, 2/10, 8/10, 9/10] =
      Except.ok { threshold := 4/5, spec := 1, sens := 1 } :=
  ⟨⟨rfl, by decide, by decide⟩,
    C3_get_threshold_val_argmax_last [(0 : ℚ), 0, 1, 1] [1/10, 2/10, 8/10, 9/10]
      rfl (by decide) (by decide),
    C3_example_eval⟩

/-! ## Tensor assembly (`create_X`, source lines 266-322) -/

/-- A numpy 4-D array: the shape passed to `np.zeros`, and the entries as a
total function (positions never written keep the initial `0`). -/
structure NpArray4 where
  shape : Nat × Nat × Nat × Nat
  entry : Nat → Nat → Nat → Nat → ℚ

/-- `X[idx, :, range(0, one_hot_gene.shape[0]), gene_index] = one_hot_gene`:
with a scalar, a slice, an index array, and a scalar, numpy broadcasts the
advanced indices first, so the right-hand `(L, 5)` matrix writes
`one_hot_gene[p][j]` to `X[idx, j, p, gene_index]` for every `p < L` and every
`j < 5`, leaving all other entries of `X` unchanged. -/
def assignOneHot (X : Nat → Nat → Nat → Nat → ℚ) (idx g : Nat)
    (m : List (List ℚ)) : Nat → Nat → Nat → Nat → ℚ :=
  fun i j p q =>
    if i = idx ∧ q = g ∧ p < m.length then (m.getD p []).getD j 0 else X i j p q

/-- `create_X(df_geno_pheno)`, with the table's one-hot columns given per row:
`rows[i][g]` is the one-hot matrix of isolate `i` at locus `g`.  `_get_shapes`
reads every locus length off the first row
(`df_geno_pheno.loc[df_geno_pheno.index[0], column].shape[0]`); `L_longest` is
the maximum of those lengths (`max` of a list of naturals, written as a fold);
the tensor starts as `np.zeros((n_strains, 5, L_longest, n_genes))` and the
nested loop writes each isolate's one-hot matrix for each locus. -/
def create_X (rows : List (List (List (List ℚ)))) : NpArray4 :=
  let shapes := (rows.headD []).map fun m => m.length
  let n_genes := shapes.length
  let L_longest := shapes.foldl max 0
  let n_strains := rows.length
  let X0 : Nat → Nat → Nat → Nat → ℚ := fun _ _ _ _ => 0
  let X := (List.range n_strains).foldl
    (fun Y idx => (List.range n_genes).foldl
      (fun Z g => assignOneHot Z idx g ((rows.getD idx []).getD g [])) Y) X0
  ⟨(n_strains, 5, L_longest, n_genes), X⟩

/-! ## Helper lemmas for `create_X` -/

theorem innerFold_entry (mats : Nat → List (List ℚ)) (idx : Nat) :
    ∀ (ks : List Nat) (X : Nat → Nat → Nat → Nat → ℚ) (i j p q : Nat),
      (ks.foldl (fun Z g => assignOneHot Z idx g (mats g)) X) i j p q =
        if i = idx ∧ q ∈ ks ∧ p < (mats q).length then ((mats q).getD p []).getD j 0
        else X i j p q := by
  intro ks
  induction ks with
  | nil =>
    intro X i j p q
    simp
  | cons a ks ih =>
    intro X i j p q
    rw [List.foldl_cons, ih]
    by_cases h1 : i = idx ∧ q ∈ ks ∧ p < (mats q).length
    · rw [if_pos h1, if_pos ⟨h1.1, List.mem_cons_of_mem a h1.2.1, h1.2.2⟩]
    · rw [if_neg h1]
      unfold assignOneHot
      by_cases h2 : i = idx ∧ q = a ∧ p < (mats a).length
      · obtain ⟨hi, hqa, hp⟩ := h2
        subst hqa
        rw [if_pos ⟨hi, rfl, hp⟩, if_pos ⟨hi, List.mem_cons_self q ks, hp⟩]
      · rw [if_neg h2, if_neg ?_]
        rintro ⟨hi, hmem, hp⟩
        rcases List.mem_cons.mp hmem with hqa | hmem2
        · exact h2 ⟨hi, hqa, hqa ▸ hp⟩
        · exact h1 ⟨hi, hmem2, hp⟩

theorem outerFold_entry (mats2 : Nat → Nat → List (List ℚ)) (G : Nat) :
    ∀ (is : List Nat) (X : Nat → Nat → Nat → Nat → ℚ) (i j p q : Nat),
      (is.foldl (fun Y idx => (List.range G).foldl
          (fun Z g => assignOneHot Z idx g (mats2 idx g)) Y) X) i j p q =
        if i ∈ is ∧ q < G ∧ p < (mats2 i q).length then ((mats2 i q).getD p []).getD j 0
        else X i j p q := by
  intro is
  induction is with
  | nil =>
    intro X i j p q
    simp
  | cons a is ih =>
    intro X i j p q
    rw [List.foldl_cons, ih]
    by_cases h1 : i ∈ is ∧ q < G ∧ p < (mats2 i q).length
    · rw [if_pos h1, if_pos ⟨List.mem_cons_of_mem a h1.1, h1.2⟩]
    · rw [if_neg h1, innerFold_entry]
      by_cases h2 : i = a ∧ q ∈ List.range G ∧ p < (mats2 a q).length
      · obtain ⟨hia, hqr, hp⟩ := h2
        subst hia
        rw [if_pos ⟨rfl, hqr, hp⟩,
          if_pos ⟨List.mem_cons_self i is, List.mem_range.mp hqr, hp⟩]
      · rw [if_neg h2, if_neg ?_]
        rintro ⟨hmem, hq, hp⟩
        rcases List.mem_cons.mp hmem with hia | hmem2
        · exact h2 ⟨hia, List.mem_range.mpr hq, hia ▸ hp⟩
        · exact h1 ⟨hmem2, hq, hp⟩

theorem create_X_entry (rows : List (List (List (List ℚ)))) (i j p q : Nat) :
    (create_X rows).entry i j p q =
      if i < rows.length ∧ q < (rows.headD []).length ∧
          p < ((rows.getD i []).getD q []).length then
        ((((rows.getD i []).getD q []).getD p []).getD j 0)
      else 0 := by
  simp only [create_X]
  rw [outerFold_entry (fun idx g => (rows.getD idx []).getD g [])
    ((rows.headD []).map fun m => m.length).length (List.range rows.length)]
  rw [List.length_map]
  by_cases h : i < rows.length ∧ q < (rows.headD []).length ∧
      p < ((rows.getD i []).getD q []).length
  · rw [if_pos ⟨List.mem_range.mpr h.1, h.2⟩, if_pos h]
  · rw [if_neg (fun hx => h ⟨List.mem_range.mp hx.1, hx.2⟩), if_neg h]

/-! ## Claim theorem: tensor assembler -/

/-- C6: for every merged table with at least one isolate and at least one locus
column, all rows of a locus column having that locus's fixed length, `create_X`
returns a tensor of shape (N_isolates, 5, L_max, N_loci) where L_max is the
single global maximum of the locus lengths; for each isolate and locus, the
one-hot matrix occupies the first L_locus positions of the length axis and
every position at index ≥ L_locus is zero. -/
theorem C6_create_X_shape_and_padding (rows : List (List (List (List ℚ))))
    (hne : rows ≠ []) (hG0 : 0 < (rows.headD []).length)
    (huniform : ∀ r ∈ rows, r.length = (rows.headD []).length ∧
      ∀ g, g < (rows.headD []).length →
        (r.getD g []).length = ((rows.headD []).getD g []).length) :
    (create_X rows).shape = (rows.length, 5,
      ((rows.headD []).map fun m => m.length).foldl max 0, (rows.headD []).length) ∧
    (∀ g, g < (rows.headD []).length →
      ((rows.headD []).getD g []).length ≤
        ((rows.headD []).map fun m => m.length).foldl max 0) ∧
    (∃ g, g < (rows.headD []).length ∧
      ((rows.headD []).getD g []).length =
        ((rows.headD []).map fun m => m.length).foldl max 0) ∧
    ∀ i, i < rows.length → ∀ g, g < (rows.headD []).length → ∀ j p : Nat,
      (p < ((rows.headD []).getD g []).length →
        (create_X rows).entry i j p g = (((rows.getD i []).getD g []).getD p []).getD j 0) ∧
      (((rows.headD []).getD g []).length ≤ p → (create_X rows).entry i j p g = 0) := by
  have hmemrow : ∀ i, i < rows.length → rows.getD i [] ∈ rows := by
    intro i hi
    rw [List.getD_eq_getElem rows [] hi]
    exact List.getElem_mem hi
  have hlen_eq : ∀ i, i < rows.length → ∀ g, g < (rows.headD []).length →
      ((rows.getD i []).getD g []).length = ((rows.headD []).getD g []).length := by
    intro i hi g hg
    exact ((huniform (rows.getD i []) (hmemrow i hi)).2) g hg
  refine ⟨?_, ?_, ?_, ?_⟩
  · simp only [create_X]
    rw [List.length_map]
  · intro g hg
    have hmem : ((rows.headD []).getD g []).length ∈
        ((rows.headD []).map fun m => m.length) := by
      rw [List.getD_eq_getElem (rows.headD []) [] hg]
      exact List.mem_map_of_mem _ (List.getElem_mem hg)
    exact foldl_max_mem_le _ 0 _ hmem
  · rcases foldl_max_mem_or ((rows.headD []).map fun m => m.length) 0 with h0 | hmem
    · refine ⟨0, hG0, ?_⟩
      have hmem : ((rows.headD []).getD 0 []).length ∈
          ((rows.headD []).map fun m => m.length) := by
        rw [List.getD_eq_getElem (rows.headD []) [] hG0]
        exact List.mem_map_of_mem _ (List.getElem_mem hG0)
      have hle := foldl_max_mem_le _ 0 _ hmem
      omega
    · rcases List.mem_map.mp hmem with ⟨m, hm, hval⟩
      rcases List.mem_iff_getElem.mp hm with ⟨g, hg, hgval⟩
      refine ⟨g, hg, ?_⟩
      rw [List.getD_eq_getElem (rows.headD []) [] hg, hgval, hval]
  · intro i hi g hg j p
    constructor
    · intro hp
      rw [create_X_entry]
      rw [if_pos ⟨hi, hg, by rw [hlen_eq i hi g hg]; exact hp⟩]
    · intro hp
      rw [create_X_entry]
      rw [if_neg ?_]
      rintro ⟨_, _, hplt⟩
      rw [hlen_eq i hi g hg] at hplt
      omega

/-- Witness for C6 at a concrete one-isolate table with two loci of lengths 1
and 2. -/
theorem C6_create_X_shape_and_padding_witness :
    (([[[[(1 : ℚ), 0, 0, 0, 0]], [[0, 1, 0, 0, 0], [0, 0, 1, 0, 0]]]] :
        List (List (List (List ℚ)))) ≠ [] ∧
      0 < (([[[[(1 : ℚ), 0, 0, 0, 0]], [[0, 1, 0, 0, 0], [0, 0, 1, 0, 0]]]] :
        List (List (List (List ℚ)))).headD []).length ∧
      (∀ r ∈ ([[[[(1 : ℚ), 0, 0, 0, 0]], [[0, 1, 0, 0, 0], [0, 0, 1, 0, 0]]]] :
          List (List (List (List ℚ)))),
        r.length = (([[[[(1 : ℚ), 0, 0, 0, 0]], [[0, 1, 0, 0, 0], [0, 0, 1, 0, 0]]]] :
          List (List (List (List ℚ)))).headD []).length ∧
        ∀ g, g < (([[[[(1 : ℚ), 0, 0, 0, 0]], [[0, 1, 0, 0, 0], [0, 0, 1, 0, 0]]]] :
            List (List (List (List ℚ)))).headD []).length →
          (r.getD g []).length =
            ((([[[[(1 : ℚ), 0, 0, 0, 0]], [[0, 1, 0, 0, 0], [0, 0, 1, 0, 0]]]] :
              List (List (List (List ℚ)))).headD []).getD g []).length)) ∧
    (create_X [[[[(1 : ℚ), 0, 0, 0, 0]], [[0, 1, 0, 0, 0], [0, 0, 1, 0, 0]]]]).shape =
      (1, 5, 2, 2) :=
  ⟨⟨by decide, by decide, by decide⟩,
    by
      have h := (C6_create_X_shape_and_padding
        [[[[(1 : ℚ), 0, 0, 0, 0]], [[0, 1, 0, 0, 0], [0, 0, 1, 0, 0]]]]
        (by decide) (by decide) (by decide)).1
      rw [h]
      decide⟩

end MTBCNN
